import Mathlib

/-!
# Verification of the option-scanner valuation pipeline

Shallow embedding of `src/script.py`: the Black-Scholes pricing model,
the time-to-expiration normalizer, the per-contract valuation classifier
and the scan orchestrator, together with theorems checking the spec's
claims about them.

Numeric values that the Python code holds in IEEE doubles are modelled as
real numbers (ℝ); the exact date arithmetic is carried out in ℚ.  The
standard normal CDF `scipy.stats.norm.cdf` is modelled as the integral of
the standard Gaussian density.
-/

open MeasureTheory ProbabilityTheory

/-- The standard normal cumulative distribution function: the model of
`scipy.stats.norm.cdf`. -/
noncomputable def normCdf (x : ℝ) : ℝ := ∫ t in Set.Iic x, gaussianPDFReal 0 1 t

/-- `black_scholes_call` (src/script.py lines 14-17): the Black-Scholes call
value `S * Φ(d1) - K * exp(-r*t) * Φ(d2)` with
`d1 = (log (S/K) + (r + 0.5*σ²)*t) / (σ*√t)` and `d2 = d1 - σ*√t`. -/
noncomputable def black_scholes_call (S K sigma r t : ℝ) : ℝ :=
  let d1 := (Real.log (S / K) + (r + 0.5 * sigma ^ 2) * t) / (sigma * Real.sqrt t)
  let d2 := d1 - sigma * Real.sqrt t
  S * normCdf d1 - K * Real.exp (-r * t) * normCdf d2

/-- `black_scholes_put` (src/script.py lines 20-23): the Black-Scholes put
value `K * exp(-r*t) * Φ(-d2) - S * Φ(-d1)` with the same `d1`, `d2`. -/
noncomputable def black_scholes_put (S K sigma r t : ℝ) : ℝ :=
  let d1 := (Real.log (S / K) + (r + 0.5 * sigma ^ 2) * t) / (sigma * Real.sqrt t)
  let d2 := d1 - sigma * Real.sqrt t
  K * Real.exp (-r * t) * normCdf (-d2) - S * normCdf (-d1)

/-- `d1` exactly as the spec writes it: `(ln(S/K) + (r + σ²/2)·t) / (σ·√t)`. -/
noncomputable def d1_spec (S K sigma r t : ℝ) : ℝ :=
  (Real.log (S / K) + (r + sigma ^ 2 / 2) * t) / (sigma * Real.sqrt t)

/-- `d2` exactly as the spec writes it: `d1 − σ·√t`. -/
noncomputable def d2_spec (S K sigma r t : ℝ) : ℝ :=
  d1_spec S K sigma r t - sigma * Real.sqrt t

/-- A parsed calendar date, as `datetime.datetime.strptime(s, "%Y-%m-%d")`
produces it (the UTC tag carries no information for whole-day arithmetic). -/
structure Date where
  year : Nat
  month : Nat
  day : Nat
deriving DecidableEq, Repr

/-- Gregorian leap year, as CPython's `datetime._is_leap`. -/
def isLeapYear (y : Nat) : Bool :=
  (y % 4 == 0 && y % 100 != 0) || y % 400 == 0

/-- Days in a month, as CPython's `datetime._days_in_month`. -/
def daysInMonth (y m : Nat) : Nat :=
  if m = 2 then (if isLeapYear y then 29 else 28)
  else if m = 4 ∨ m = 6 ∨ m = 9 ∨ m = 11 then 30
  else 31

/-- Days before January 1 of year `y`, as CPython's `datetime._days_before_year`. -/
def daysBeforeYear (y : Nat) : Nat :=
  (y - 1) * 365 + (y - 1) / 4 - (y - 1) / 100 + (y - 1) / 400

/-- Days in year `y` strictly before month `m`, as CPython's
`datetime._days_before_month`. -/
def daysBeforeMonth (y m : Nat) : Nat :=
  (List.range (m - 1)).foldl (fun acc i => acc + daysInMonth y (i + 1)) 0

/-- Proleptic-Gregorian ordinal of a date, as CPython's `date.toordinal`
(day 1 = 0001-01-01); `(exp_date - ref_date).days` is the difference of the
two ordinals. -/
def toOrdinal (d : Date) : Nat :=
  daysBeforeYear d.year + daysBeforeMonth d.year d.month + d.day

/-- The maximal groups of characters between the dashes of `s`, in order
(the splitting `strptime`'s `%Y-%m-%d` pattern performs on a well-formed
input). -/
def dashGroups : List Char → List (List Char)
  | [] => [[]]
  | c :: cs =>
    let rest := dashGroups cs
    if c = '-' then [] :: rest
    else match rest with
      | [] => [[c]]
      | g :: gs => (c :: g) :: gs

/-- Whether a group of characters is all decimal digits (and nonempty). -/
def allDigits (l : List Char) : Bool :=
  !l.isEmpty && l.all (·.isDigit)

/-- The number a group of decimal digits denotes. -/
def digitsVal (l : List Char) : Nat :=
  l.foldl (fun a c => 10 * a + (c.toNat - 48)) 0

/-- Model of `datetime.datetime.strptime(s, "%Y-%m-%d")`: a 4-digit year
(at least 0001), a 1-2 digit month in 1..12, a 1-2 digit day valid for that
month, joined by single dashes with nothing left over; anything else raises. -/
def parseDate (s : String) : Option Date :=
  match dashGroups s.toList with
  | [ys, ms, ds] =>
    if allDigits ys ∧ allDigits ms ∧ allDigits ds then
      let y := digitsVal ys
      let m := digitsVal ms
      let d := digitsVal ds
      if ys.length = 4 ∧ 1 ≤ y ∧ ms.length ≤ 2 ∧ 1 ≤ m ∧ m ≤ 12 ∧
          ds.length ≤ 2 ∧ 1 ≤ d ∧ d ≤ daysInMonth y m
      then some ⟨y, m, d⟩ else none
    else none
  | _ => none

/-- The failure `time_to_expiration` raises when `strptime` cannot parse an
input (spec: `DateFormatError`). -/
inductive DateFormatError where
  | unparseable
deriving DecidableEq, Repr

/-- `time_to_expiration` (src/script.py lines 49-53): parse both dates,
take the whole-day difference divided by 365.0, and clamp the result to at
least 0.0001.  Exact arithmetic in ℚ models the float computation. -/
def time_to_expiration (expiration_date reference_date : String) :
    Except DateFormatError ℚ :=
  match parseDate expiration_date, parseDate reference_date with
  | some e, some r =>
    .ok (max (((toOrdinal e : ℚ) - (toOrdinal r : ℚ)) / 365) (1 / 10000))
  | _, _ => .error .unparseable

/-- A raw option-chain row as the scan consumes it (the fields the loop in
src/script.py lines 75-84 reads).  The numeric fields carry the values
Python's `float(...)` coercion yields; `strikeText` is the raw strike text
that the synthesized symbol embeds; `vol` is the implied-volatility field,
`none` when that field is absent/falsy-null. -/
structure OptionRow where
  call_put : String
  strikeText : String
  strike : ℝ
  expiration : String
  bid : ℝ
  ask : ℝ
  vol : Option ℝ

/-- The record built for a flagged contract (src/script.py lines 89-102).
`TypeStr` models the source field named `Type` (a Lean keyword). -/
structure ValuationResult where
  RecordId : String
  UnderlyingTicker : String
  OptionTicker : String
  TypeStr : String
  S : ℝ
  K : ℝ
  sigma : ℝ
  r : ℝ
  t : ℝ
  MarketPrice : ℝ
  BlackScholesPrice : ℝ
  Undervaluation : ℝ

/-- Market price: the bid/ask midpoint `(bid + ask) / 2` (line 80). -/
noncomputable def marketPrice (opt : OptionRow) : ℝ := (opt.bid + opt.ask) / 2

/-- σ used for pricing (line 81): the row's implied volatility when present
and truthy (non-zero), else the supplied default. -/
noncomputable def sigmaOf (vol : Option ℝ) (sigma_default : ℝ) : ℝ :=
  match vol with
  | some v => if v = 0 then sigma_default else v
  | none => sigma_default

/-- The synthesized option symbol (line 77): underlying ++ expiration with
dashes removed ++ C/P ++ the strike text. -/
def optionTicker (underlying expiration : String) (is_call : Bool)
    (strikeText : String) : String :=
  underlying ++ expiration.replace "-" "" ++ (if is_call then "C" else "P")
    ++ strikeText

/-- The theoretical price (line 84): Black-Scholes call or put depending on
the contract kind. -/
noncomputable def bsPrice (is_call : Bool) (S K sigma r t : ℝ) : ℝ :=
  if is_call then black_scholes_call S K sigma r t
  else black_scholes_put S K sigma r t

/-- The loop body of `scan_options` for one contract (lines 75-106): derive
the pricing inputs, price the contract, and flag it iff the market price is
strictly below the theoretical price.  A date-format failure propagates. -/
noncomputable def classify (underlying : String) (S r sigma_default : ℝ)
    (test_date now : String) (opt : OptionRow) :
    Except DateFormatError (Option ValuationResult) :=
  let is_call := opt.call_put == "Call"
  let ticker := optionTicker underlying opt.expiration is_call opt.strikeText
  let K := opt.strike
  let market_price := marketPrice opt
  let sigma := sigmaOf opt.vol sigma_default
  match time_to_expiration opt.expiration test_date with
  | .error e => .error e
  | .ok tq =>
    let t : ℝ := (tq : ℝ)
    let bs_price := bsPrice is_call S K sigma r t
    if market_price < bs_price then
      .ok (some {
        RecordId := now
        UnderlyingTicker := underlying
        OptionTicker := ticker
        TypeStr := if is_call then "Call" else "Put"
        S := S, K := K, sigma := sigma, r := r, t := t
        MarketPrice := market_price
        BlackScholesPrice := bs_price
        Undervaluation := bs_price - market_price })
    else .ok none

/-- The `for option in options_data` loop (lines 75-106), returning both
the collected results and, separately, the records handed to
`collection.insert_one` in order (they coincide by construction). -/
noncomputable def scanLoop (underlying : String) (S r sigma_default : ℝ)
    (test_date now : String) : List OptionRow →
    Except DateFormatError (List ValuationResult × List ValuationResult)
  | [] => .ok ([], [])
  | opt :: rest =>
    match classify underlying S r sigma_default test_date now opt with
    | .error e => .error e
    | .ok res =>
      match scanLoop underlying S r sigma_default test_date now rest with
      | .error e => .error e
      | .ok (acc, writes) =>
        match res with
        | some v => .ok (v :: acc, v :: writes)
        | none => .ok (acc, writes)

/-- The spot price hardcoded inside `scan_options` (line 72, "AAPL close on
2023-10-18"). -/
noncomputable def hardcodedS : ℝ := 175.84

/-- `scan_options` (lines 56-109) after the chain has been fetched: empty
data short-circuits to an empty result with no writes; otherwise every row
is classified with the hardcoded spot price. -/
noncomputable def scan_options (underlying : String) (r sigma_default : ℝ)
    (test_date now : String) (options_data : List OptionRow) :
    Except DateFormatError (List ValuationResult × List ValuationResult) :=
  if options_data.isEmpty then .ok ([], [])
  else scanLoop underlying hardcodedS r sigma_default test_date now options_data

noncomputable def cexRow : OptionRow :=
  { call_put := "Call", strikeText := "1", strike := 1,
    expiration := "2023-10-19", bid := -4, ask := -4, vol := none }

noncomputable def cexBs : ℝ := black_scholes_call 175.84 1 0.3 0.05 ((1/365 : ℚ) : ℝ)

noncomputable def cexResult : ValuationResult :=
  { RecordId := "now", UnderlyingTicker := "AAPL",
    OptionTicker := optionTicker "AAPL" "2023-10-19" true "1",
    TypeStr := "Call", S := 175.84, K := 1, sigma := 0.3, r := 0.05,
    t := ((1/365 : ℚ) : ℝ), MarketPrice := (-4 + -4) / 2,
    BlackScholesPrice := cexBs,
    Undervaluation := cexBs - (-4 + -4) / 2 }

/-- What the code inspects in a decoded DoltHub JSON payload (src/script.py
lines 39-43): the value at "query_execution_status", when that key is
present, and the value at "rows", when that key is present. -/
structure DoltPayload where
  query_execution_status : Option String
  rows : Option (List OptionRow)

/-- The observable outcome of the HTTP GET (line 33): a requests/network
exception, or a response carrying a status code and a body that either
decodes as JSON (`some payload`) or does not (`none`). -/
inductive FetchOutcome where
  | netError
  | resp (status : Nat) (body : Option DoltPayload)

/-- The failures `fetch_dolthub_options` raises. -/
inductive DataSourceError where
  | network
  | apiStatus (status : Nat)
  | malformedJson

/-- `fetch_dolthub_options` (lines 26-46): a network error propagates, a
non-200 status raises, a body that does not decode raises (the
`response.json()` exception is logged and re-raised), a decoded payload
yields its rows when the execution status equals "Success" and the "rows"
key is present, and any other decoded payload yields the empty list. -/
def fetch_dolthub_options : FetchOutcome → Except DataSourceError (List OptionRow)
  | .netError => .error .network
  | .resp status body =>
    if status ≠ 200 then .error (.apiStatus status)
    else
      match body with
      | none => .error .malformedJson
      | some data =>
        match data.query_execution_status, data.rows with
        | some "Success", some rows => .ok rows
        | _, _ => .ok []

/-- An error surfacing from a whole scan: a data-source failure from the
fetch, or a date-format failure from the loop. -/
inductive ScanError where
  | dataSource (e : DataSourceError)
  | dateFormat (e : DateFormatError)

/-- `scan_options` including its fetch step (line 62): a fetch failure
fails the whole scan; otherwise the fetched rows are scanned. -/
noncomputable def scan_options_full (underlying : String) (r sigma_default : ℝ)
    (test_date now : String) (outcome : FetchOutcome) :
    Except ScanError (List ValuationResult × List ValuationResult) :=
  match fetch_dolthub_options outcome with
  | .error e => .error (.dataSource e)
  | .ok rows =>
    match scan_options underlying r sigma_default test_date now rows with
    | .error e => .error (.dateFormat e)
    | .ok p => .ok p

/-- The row limit of the DoltHub query: the default `limit=100` of
`fetch_dolthub_options` (line 26), which the call in `scan_options`
(line 62) never overrides. -/
def default_limit : Nat := 100

/-- The query URL `fetch_dolthub_options` issues (lines 27-31). -/
def fetch_url (ticker date : String) (limit : Nat) : String :=
  "https://www.dolthub.com/api/v1alpha1/post-no-preference/options/master?"
    ++ "q=SELECT * FROM option_chain WHERE act_symbol = '" ++ ticker ++ "' "
    ++ "AND date = '" ++ date ++ "' LIMIT " ++ toString limit

/-- Modelled from the spec: the external data-source collaborator is "a
query interface returning, for a given underlying ticker and date, a
sequence of raw contract records"; executing the fetch's
`SELECT ... LIMIT n` query against its `option_chain` table answers with a
success payload holding at most `n` of the matching rows. -/
def dolthubQuery (table : List OptionRow) (limit : Nat) : FetchOutcome :=
  .resp 200 (some ⟨some "Success", some (table.take limit)⟩)

/-- The scan as invoked against the data-source collaborator: the fetch
runs with the fixed default limit. -/
noncomputable def scan_options_live (underlying : String) (r sigma_default : ℝ)
    (test_date now : String) (table : List OptionRow) :
    Except ScanError (List ValuationResult × List ValuationResult) :=
  scan_options_full underlying r sigma_default test_date now
    (dolthubQuery table default_limit)

lemma stdGaussian_even (t : ℝ) : gaussianPDFReal 0 1 (-t) = gaussianPDFReal 0 1 t := by
  simp [gaussianPDFReal, neg_sq]

lemma normCdf_nonneg (x : ℝ) : 0 ≤ normCdf x :=
  setIntegral_nonneg measurableSet_Iic fun t _ => gaussianPDFReal_nonneg 0 1 t

lemma normCdf_le_one (x : ℝ) : normCdf x ≤ 1 := by
  have h := setIntegral_le_integral (s := Set.Iic x)
    (integrable_gaussianPDFReal 0 1)
    (Filter.Eventually.of_forall (gaussianPDFReal_nonneg 0 1))
  calc normCdf x ≤ ∫ t, gaussianPDFReal 0 1 t := h
    _ = 1 := integral_gaussianPDFReal_eq_one 0 one_ne_zero

/-- Symmetry of the standard normal CDF: `Φ x + Φ (-x) = 1`. -/
lemma normCdf_add_neg (x : ℝ) : normCdf x + normCdf (-x) = 1 := by
  have hneg : normCdf (-x) = ∫ t in Set.Ioi x, gaussianPDFReal 0 1 t := by
    have h1 : (∫ t in Set.Iic (-x), gaussianPDFReal 0 1 (-t))
        = ∫ t in Set.Ioi (-(-x)), gaussianPDFReal 0 1 t :=
      integral_comp_neg_Iic (-x) (gaussianPDFReal 0 1)
    simp only [stdGaussian_even, neg_neg] at h1
    simpa [normCdf] using h1
  have hsplit : (∫ t in Set.Iic x, gaussianPDFReal 0 1 t)
      + (∫ t in Set.Ioi x, gaussianPDFReal 0 1 t) = ∫ t, gaussianPDFReal 0 1 t :=
    intervalIntegral.integral_Iic_add_Ioi (integrable_gaussianPDFReal 0 1).integrableOn
      (integrable_gaussianPDFReal 0 1).integrableOn
  calc normCdf x + normCdf (-x)
      = (∫ t in Set.Iic x, gaussianPDFReal 0 1 t)
        + (∫ t in Set.Ioi x, gaussianPDFReal 0 1 t) := by rw [normCdf, hneg]
    _ = ∫ t, gaussianPDFReal 0 1 t := hsplit
    _ = 1 := integral_gaussianPDFReal_eq_one 0 one_ne_zero

/-- C1: for S,K,σ,t > 0 the call-pricing operation returns exactly
`S·Φ(d1) − K·e^(−r·t)·Φ(d2)` and the put-pricing operation returns
`K·e^(−r·t)·Φ(−d2) − S·Φ(−d1)`, with `d1`, `d2` as the spec defines them. -/
theorem black_scholes_matches_spec_formula (S K sigma r t : ℝ)
    (hS : 0 < S) (hK : 0 < K) (hs : 0 < sigma) (ht : 0 < t) :
    black_scholes_call S K sigma r t
      = S * normCdf (d1_spec S K sigma r t)
        - K * Real.exp (-(r * t)) * normCdf (d2_spec S K sigma r t) ∧
    black_scholes_put S K sigma r t
      = K * Real.exp (-(r * t)) * normCdf (-d2_spec S K sigma r t)
        - S * normCdf (-d1_spec S K sigma r t) := by
  have hd : (Real.log (S / K) + (r + 0.5 * sigma ^ 2) * t) / (sigma * Real.sqrt t)
      = d1_spec S K sigma r t := by
    unfold d1_spec; ring_nf
  constructor
  · unfold black_scholes_call
    rw [hd]
    unfold d2_spec
    rw [neg_mul]
  · unfold black_scholes_put
    rw [hd]
    unfold d2_spec
    rw [neg_mul]

/-- Witness for C1 at S = K = σ = t = 1, r = 0. -/
theorem black_scholes_matches_spec_formula_witness :
    black_scholes_call 1 1 1 0 1
      = 1 * normCdf (d1_spec 1 1 1 0 1)
        - 1 * Real.exp (-((0 : ℝ) * 1)) * normCdf (d2_spec 1 1 1 0 1) ∧
    black_scholes_put 1 1 1 0 1
      = 1 * Real.exp (-((0 : ℝ) * 1)) * normCdf (-d2_spec 1 1 1 0 1)
        - 1 * normCdf (-d1_spec 1 1 1 0 1) :=
  black_scholes_matches_spec_formula 1 1 1 0 1 one_pos one_pos one_pos one_pos

/-- C4: put-call parity holds exactly (hence within any tolerance):
`call − put = S − K·e^(−r·t)` for S,K,σ,t > 0. -/
theorem put_call_parity (S K sigma r t : ℝ)
    (hS : 0 < S) (hK : 0 < K) (hs : 0 < sigma) (ht : 0 < t) :
    black_scholes_call S K sigma r t - black_scholes_put S K sigma r t
      = S - K * Real.exp (-r * t) := by
  unfold black_scholes_call black_scholes_put
  have h1 := normCdf_add_neg
    ((Real.log (S / K) + (r + 0.5 * sigma ^ 2) * t) / (sigma * Real.sqrt t))
  have h2 := normCdf_add_neg
    ((Real.log (S / K) + (r + 0.5 * sigma ^ 2) * t) / (sigma * Real.sqrt t)
      - sigma * Real.sqrt t)
  simp only []
  linear_combination S * h1 - K * Real.exp (-r * t) * h2

/-- Witness for C4 at S = K = σ = t = 1, r = 0. -/
theorem put_call_parity_witness :
    black_scholes_call 1 1 1 0 1 - black_scholes_put 1 1 1 0 1
      = 1 - 1 * Real.exp (-(0 : ℝ) * 1) :=
  put_call_parity 1 1 1 0 1 one_pos one_pos one_pos one_pos

/-- C3: for parseable dates, `time_to_expiration` returns the whole-day
difference over 365 whenever the expiration is after the reference date, is
always strictly positive, and returns exactly 0.0001 whenever the
expiration is on or before the reference date. -/
theorem time_to_expiration_spec (e r : String) (de dr : Date)
    (he : parseDate e = some de) (hr : parseDate r = some dr) :
    ∃ q, time_to_expiration e r = .ok q ∧ 0 < q ∧
      (toOrdinal dr < toOrdinal de →
        q = ((toOrdinal de : ℚ) - (toOrdinal dr : ℚ)) / 365) ∧
      (toOrdinal de ≤ toOrdinal dr → q = 1 / 10000) := by
  rw [time_to_expiration, he, hr]
  refine ⟨_, rfl, ?_, ?_, ?_⟩
  · exact lt_of_lt_of_le (by norm_num) (le_max_right _ _)
  · intro hlt
    apply max_eq_left
    have h1 : (1 : ℚ) ≤ (toOrdinal de : ℚ) - (toOrdinal dr : ℚ) := by
      have := Nat.succ_le_of_lt hlt
      have hc : ((toOrdinal dr : ℚ) + 1) ≤ (toOrdinal de : ℚ) := by
        exact_mod_cast this
      linarith
    calc (1 : ℚ) / 10000 ≤ 1 / 365 := by norm_num
      _ ≤ ((toOrdinal de : ℚ) - (toOrdinal dr : ℚ)) / 365 :=
        (div_le_div_iff_of_pos_right (by norm_num)).mpr h1
  · intro hle
    apply max_eq_right
    have h0 : (toOrdinal de : ℚ) - (toOrdinal dr : ℚ) ≤ 0 := by
      have hc : (toOrdinal de : ℚ) ≤ (toOrdinal dr : ℚ) := by exact_mod_cast hle
      linarith
    have hdiv : ((toOrdinal de : ℚ) - (toOrdinal dr : ℚ)) / 365 ≤ 0 := by
      rw [div_eq_mul_inv]
      exact mul_nonpos_iff.mpr (Or.inr ⟨h0, by norm_num⟩)
    exact le_trans hdiv (by norm_num)

/-- Witness for C3: expiration 2023-10-19 against reference 2023-10-18. -/
theorem time_to_expiration_spec_witness :
    ∃ q, time_to_expiration "2023-10-19" "2023-10-18" = .ok q ∧ 0 < q ∧
      (toOrdinal ⟨2023, 10, 18⟩ < toOrdinal ⟨2023, 10, 19⟩ →
        q = ((toOrdinal (⟨2023, 10, 19⟩ : Date) : ℚ)
          - (toOrdinal (⟨2023, 10, 18⟩ : Date) : ℚ)) / 365) ∧
      (toOrdinal ⟨2023, 10, 19⟩ ≤ toOrdinal ⟨2023, 10, 18⟩ → q = 1 / 10000) :=
  time_to_expiration_spec "2023-10-19" "2023-10-18" ⟨2023, 10, 19⟩ ⟨2023, 10, 18⟩
    (by decide) (by decide)

/-- C8: `time_to_expiration` fails with a `DateFormatError` exactly when one
of its inputs is not a parseable calendar date; on parseable inputs it
succeeds. -/
theorem time_to_expiration_error_iff (e r : String) :
    (∃ err, time_to_expiration e r = .error err)
      ↔ parseDate e = none ∨ parseDate r = none := by
  rw [time_to_expiration]
  cases he : parseDate e <;> cases hr : parseDate r <;>
    simp [he, hr] <;> exact ⟨.unparseable, trivial⟩

/-- C2: a `ValuationResult` is produced iff the market price (bid/ask
midpoint) is strictly below the theoretical price — equality produces
nothing — and any produced result's `Undervaluation` is theoretical minus
market, strictly positive. -/
theorem classify_flags_iff_undervalued (underlying : String)
    (S r sigma_default : ℝ) (test_date now : String) (opt : OptionRow)
    (tq : ℚ) (ht : time_to_expiration opt.expiration test_date = .ok tq) :
    ((∃ v, classify underlying S r sigma_default test_date now opt
        = .ok (some v))
      ↔ marketPrice opt
          < bsPrice (opt.call_put == "Call") S opt.strike
              (sigmaOf opt.vol sigma_default) r (tq : ℝ)) ∧
    (∀ v, classify underlying S r sigma_default test_date now opt
        = .ok (some v) →
      v.Undervaluation
          = bsPrice (opt.call_put == "Call") S opt.strike
              (sigmaOf opt.vol sigma_default) r (tq : ℝ) - marketPrice opt
        ∧ 0 < v.Undervaluation) := by
  unfold classify
  rw [ht]
  dsimp only
  by_cases h : marketPrice opt
      < bsPrice (opt.call_put == "Call") S opt.strike
          (sigmaOf opt.vol sigma_default) r (tq : ℝ)
  · rw [if_pos h]
    refine ⟨⟨fun _ => h, fun _ => ⟨_, rfl⟩⟩, ?_⟩
    intro v hv
    simp only [Except.ok.injEq, Option.some.injEq] at hv
    subst hv
    exact ⟨rfl, sub_pos.mpr h⟩
  · rw [if_neg h]
    refine ⟨⟨fun hv => ?_, fun hlt => absurd hlt h⟩, fun v hv => ?_⟩
    · obtain ⟨v, hv⟩ := hv
      simp at hv
    · simp at hv

/-- C7: every produced result was priced with σ taken from the contract's
implied-volatility field when present and non-zero, else the default, and
compared against the market price (bid + ask) / 2. -/
theorem classify_derives_sigma_and_market (underlying : String)
    (S r sigma_default : ℝ) (test_date now : String) (opt : OptionRow)
    (v : ValuationResult)
    (h : classify underlying S r sigma_default test_date now opt
      = .ok (some v)) :
    v.MarketPrice = (opt.bid + opt.ask) / 2 ∧
    v.sigma = (match opt.vol with
      | some x => if x = 0 then sigma_default else x
      | none => sigma_default) ∧
    v.BlackScholesPrice
      = bsPrice (opt.call_put == "Call") S opt.strike v.sigma r v.t := by
  unfold classify at h
  cases htte : time_to_expiration opt.expiration test_date with
  | error e => rw [htte] at h; simp at h
  | ok tq =>
    rw [htte] at h
    dsimp only at h
    by_cases hlt : marketPrice opt
        < bsPrice (opt.call_put == "Call") S opt.strike
            (sigmaOf opt.vol sigma_default) r (tq : ℝ)
    · rw [if_pos hlt] at h
      simp only [Except.ok.injEq, Option.some.injEq] at h
      subst h
      refine ⟨rfl, rfl, rfl⟩
    · rw [if_neg hlt] at h
      simp at h

lemma tte_cex : time_to_expiration "2023-10-19" "2023-10-18" = .ok (1/365) := by
  have h1 : parseDate "2023-10-19" = some ⟨2023, 10, 19⟩ := by decide
  have h2 : parseDate "2023-10-18" = some ⟨2023, 10, 18⟩ := by decide
  have o1 : toOrdinal ⟨2023, 10, 19⟩ = 738812 := by decide
  have o2 : toOrdinal ⟨2023, 10, 18⟩ = 738811 := by decide
  rw [time_to_expiration, h1, h2]
  simp only [o1, o2]
  norm_num [max_def]

lemma bs_cex_lb :
    (-4 : ℝ) < black_scholes_call 175.84 1 0.3 0.05 ((1/365 : ℚ) : ℝ) := by
  unfold black_scholes_call
  set t : ℝ := ((1/365 : ℚ) : ℝ) with ht
  set d1 := (Real.log (175.84 / 1) + (0.05 + 0.5 * 0.3 ^ 2) * t)
      / (0.3 * Real.sqrt t) with hd1
  have hA := normCdf_nonneg d1
  have hB0 := normCdf_nonneg (d1 - 0.3 * Real.sqrt t)
  have hB1 := normCdf_le_one (d1 - 0.3 * Real.sqrt t)
  have htpos : (0 : ℝ) ≤ t := by
    rw [ht]; positivity
  have hE1 : Real.exp (-0.05 * t) ≤ 1 := by
    rw [Real.exp_le_one_iff]
    nlinarith
  have hE0 : 0 < Real.exp (-0.05 * t) := Real.exp_pos _
  nlinarith

lemma classify_cex :
    classify "AAPL" 175.84 0.05 0.3 "2023-10-18" "now" cexRow
      = .ok (some cexResult) := by
  have hcond : marketPrice cexRow
      < bsPrice (cexRow.call_put == "Call") 175.84 cexRow.strike
          (sigmaOf cexRow.vol 0.3) 0.05 ((1/365 : ℚ) : ℝ) := by
    have h1 : marketPrice cexRow = -4 := by
      unfold marketPrice cexRow; norm_num
    rw [h1]
    have h2 : (cexRow.call_put == "Call") = true := by rfl
    rw [h2]
    simp only [bsPrice, if_true, cexRow, sigmaOf]
    exact bs_cex_lb
  unfold classify
  rw [show cexRow.expiration = "2023-10-19" from rfl, tte_cex]
  dsimp only
  rw [if_pos hcond]
  congr 1

lemma scan_cex :
    scan_options "AAPL" 0.05 0.3 "2023-10-18" "now" ([cexRow])
      = .ok ([cexResult], [cexResult]) := by
  unfold scan_options
  rw [if_neg (by simp)]
  unfold scanLoop
  rw [(show hardcodedS = 175.84 from rfl), classify_cex]
  unfold scanLoop
  rfl

/-- C9: when the data source returns an empty chain, the scan returns an
empty sequence without error and performs zero persistence writes. -/
theorem scan_empty_chain_no_writes (u : String) (r sd : ℝ) (td now : String)
    (outcome : FetchOutcome)
    (h : fetch_dolthub_options outcome = .ok []) :
    scan_options_full u r sd td now outcome = .ok ([], []) := by
  unfold scan_options_full
  rw [h]
  rfl

/-- Witness for C9: a successful response whose rows are empty. -/
theorem scan_empty_chain_no_writes_witness :
    scan_options_full "AAPL" 0.05 0.3 "2023-10-18" "now"
        (.resp 200 (some ⟨some "Success", some []⟩)) = .ok ([], []) :=
  scan_empty_chain_no_writes "AAPL" 0.05 0.3 "2023-10-18" "now"
    (.resp 200 (some ⟨some "Success", some []⟩)) rfl

/-- C5 (amended): a network error, a non-200 status, or a body that does
not decode as JSON each fail the whole scan; but a decoded payload without
a "Success" execution status or without a "rows" key is treated as an empty
chain, not as an error. -/
theorem fetch_failure_fails_scan (u : String) (r sd : ℝ) (td now : String) :
    (∃ e, scan_options_full u r sd td now .netError = .error e) ∧
    (∀ s b, s ≠ 200 →
      ∃ e, scan_options_full u r sd td now (.resp s b) = .error e) ∧
    (∃ e, scan_options_full u r sd td now (.resp 200 none) = .error e) := by
  refine ⟨⟨.dataSource .network, rfl⟩, ?_, ⟨.dataSource .malformedJson, rfl⟩⟩
  intro s b hs
  unfold scan_options_full fetch_dolthub_options
  dsimp only
  rw [if_pos hs]
  exact ⟨.dataSource (.apiStatus s), rfl⟩

/-- Counterexample to C5 as stated: a malformed payload — valid JSON that
carries neither an execution status nor a "rows" key — does NOT fail the
scan; the scan succeeds with an empty result and zero writes. -/
theorem malformed_payload_not_an_error :
    scan_options_full "AAPL" 0.05 0.3 "2023-10-18" "now"
        (.resp 200 (some ⟨none, none⟩)) = .ok ([], []) := rfl

lemma classify_S_eq (u : String) (S r sd : ℝ) (td now : String)
    (opt : OptionRow) (v : ValuationResult)
    (h : classify u S r sd td now opt = .ok (some v)) : v.S = S := by
  unfold classify at h
  cases htte : time_to_expiration opt.expiration td with
  | error e => rw [htte] at h; simp at h
  | ok tq =>
    rw [htte] at h
    dsimp only at h
    by_cases hlt : marketPrice opt
        < bsPrice (opt.call_put == "Call") S opt.strike
            (sigmaOf opt.vol sd) r (tq : ℝ)
    · rw [if_pos hlt] at h
      simp only [Except.ok.injEq, Option.some.injEq] at h
      subst h
      rfl
    · rw [if_neg hlt] at h
      simp at h

/-- The loop invariant: the persisted records coincide with the collected
results, at most one result arises per row, and every result's spot price
is the `S` the loop was given. -/
lemma scanLoop_inv (u : String) (S r sd : ℝ) (td now : String) :
    ∀ rows res w, scanLoop u S r sd td now rows = .ok (res, w) →
      w = res ∧ res.length ≤ rows.length ∧ ∀ v ∈ res, v.S = S := by
  intro rows
  induction rows with
  | nil =>
    intro res w h
    unfold scanLoop at h
    simp only [Except.ok.injEq, Prod.mk.injEq] at h
    obtain ⟨h1, h2⟩ := h
    subst h1
    subst h2
    exact ⟨rfl, le_refl _, by simp⟩
  | cons opt rest ih =>
    intro res w h
    unfold scanLoop at h
    cases hc : classify u S r sd td now opt with
    | error e => rw [hc] at h; simp at h
    | ok o =>
      rw [hc] at h
      cases hr : scanLoop u S r sd td now rest with
      | error e => rw [hr] at h; simp at h
      | ok pr =>
        obtain ⟨acc, w'⟩ := pr
        rw [hr] at h
        obtain ⟨hw, hlen, hmem⟩ := ih acc w' hr
        cases o with
        | some v =>
          simp only [Except.ok.injEq, Prod.mk.injEq] at h
          obtain ⟨h1, h2⟩ := h
          subst h1
          subst h2
          refine ⟨by rw [hw], by simpa using hlen, ?_⟩
          intro x hx
          rcases List.mem_cons.mp hx with hx | hx
          · subst hx
            exact classify_S_eq u S r sd td now opt x hc
          · exact hmem x hx
        | none =>
          simp only [Except.ok.injEq, Prod.mk.injEq] at h
          obtain ⟨h1, h2⟩ := h
          subst h1
          subst h2
          exact ⟨hw, Nat.le_succ_of_le hlen, hmem⟩

/-- C6 (amended): the spot price is NOT an input of the scan: every result
any scan produces — whatever its arguments — carries the constant spot
price 175.84 hardcoded inside `scan_options`. -/
theorem scan_spot_price_constant (u : String) (r sd : ℝ) (td now : String)
    (rows : List OptionRow) (p : List ValuationResult × List ValuationResult)
    (h : scan_options u r sd td now rows = .ok p) :
    ∀ v ∈ p.1, v.S = 175.84 := by
  unfold scan_options at h
  by_cases he : rows.isEmpty
  · rw [if_pos he] at h
    simp only [Except.ok.injEq] at h
    subst h
    simp
  · rw [if_neg he] at h
    obtain ⟨res, w⟩ := p
    exact (scanLoop_inv u hardcodedS r sd td now rows res w h).2.2

/-- Counterexample to C6 as stated: the scan takes no spot-price input, and
a scan flags this contract with the hardcoded spot price 175.84. -/
theorem scan_spot_price_not_an_input :
    (scan_options "AAPL" 0.05 0.3 "2023-10-18" "now" ([cexRow])).map
      (fun p => p.1.map ValuationResult.S) = .ok ([175.84]) := by
  rw [scan_cex]
  rfl

/-- Witness for the amended C6 at the concrete flagged contract. -/
theorem scan_spot_price_constant_witness : cexResult.S = 175.84 :=
  scan_spot_price_constant "AAPL" 0.05 0.3 "2023-10-18" "now" ([cexRow])
    ([cexResult], [cexResult]) scan_cex cexResult (by simp)

/-- Witness for C2 at the concrete flagged contract. -/
theorem classify_flags_iff_undervalued_witness :
    ((∃ v, classify "AAPL" 175.84 0.05 0.3 "2023-10-18" "now" cexRow
        = .ok (some v))
      ↔ marketPrice cexRow
          < bsPrice (cexRow.call_put == "Call") 175.84 cexRow.strike
              (sigmaOf cexRow.vol 0.3) 0.05 ((1/365 : ℚ) : ℝ)) ∧
    (∀ v, classify "AAPL" 175.84 0.05 0.3 "2023-10-18" "now" cexRow
        = .ok (some v) →
      v.Undervaluation
          = bsPrice (cexRow.call_put == "Call") 175.84 cexRow.strike
              (sigmaOf cexRow.vol 0.3) 0.05 ((1/365 : ℚ) : ℝ)
            - marketPrice cexRow
        ∧ 0 < v.Undervaluation) :=
  classify_flags_iff_undervalued "AAPL" 175.84 0.05 0.3 "2023-10-18" "now"
    cexRow (1/365) tte_cex

/-- Witness for C7 at the concrete flagged contract. -/
theorem classify_derives_sigma_and_market_witness :
    cexResult.MarketPrice = (cexRow.bid + cexRow.ask) / 2 ∧
    cexResult.sigma = (match cexRow.vol with
      | some x => if x = 0 then (0.3 : ℝ) else x
      | none => (0.3 : ℝ)) ∧
    cexResult.BlackScholesPrice
      = bsPrice (cexRow.call_put == "Call") 175.84 cexRow.strike
          cexResult.sigma 0.05 cexResult.t :=
  classify_derives_sigma_and_market "AAPL" 175.84 0.05 0.3 "2023-10-18" "now"
    cexRow cexResult classify_cex

/-- C10: the query is issued with the fixed row limit 100, so a scan
evaluates at most 100 contracts and the returned sequence of flagged
results never has more than 100 elements. -/
theorem scan_results_at_most_100 (u : String) (r sd : ℝ) (td now : String)
    (table : List OptionRow)
    (p : List ValuationResult × List ValuationResult)
    (h : scan_options_live u r sd td now table = .ok p) :
    (∃ rows, fetch_dolthub_options (dolthubQuery table default_limit)
        = .ok rows ∧ rows.length ≤ 100) ∧
    p.1.length ≤ 100 := by
  have hf : fetch_dolthub_options (dolthubQuery table default_limit)
      = .ok (table.take default_limit) := rfl
  have hlen : (table.take default_limit).length ≤ 100 := by
    simp [default_limit]
  refine ⟨⟨table.take default_limit, hf, hlen⟩, ?_⟩
  unfold scan_options_live scan_options_full at h
  rw [hf] at h
  dsimp only at h
  cases hs : scan_options u r sd td now (table.take default_limit) with
  | error e => rw [hs] at h; simp at h
  | ok q =>
    rw [hs] at h
    simp only [Except.ok.injEq] at h
    subst h
    unfold scan_options at hs
    by_cases he : (table.take default_limit).isEmpty
    · rw [if_pos he] at hs
      simp only [Except.ok.injEq] at hs
      subst hs
      simp
    · rw [if_neg he] at hs
      obtain ⟨res, w⟩ := q
      exact le_trans
        (scanLoop_inv u hardcodedS r sd td now (table.take default_limit)
          res w hs).2.1 hlen

/-- Witness for C10 at the empty table. -/
theorem scan_results_at_most_100_witness :
    (∃ rows, fetch_dolthub_options (dolthubQuery ([]) default_limit)
        = .ok rows ∧ rows.length ≤ 100) ∧
    (([], []) : List ValuationResult × List ValuationResult).1.length ≤ 100 :=
  scan_results_at_most_100 "AAPL" 0.05 0.3 "2023-10-18" "now" ([]) ([], []) rfl
